import Mathlib

/-!
Verification of the mattermost-plugin-link-archiver core: a shallow
embedding of the archival workflow engine (URL extraction, rule-based
tool selection, dedup-and-storage pipeline) translated from the Go
sources, together with theorems settling the specification claims.

External collaborators (the Mattermost plugin API, the HTTP stack,
`crypto/sha256`) are modelled as oracle parameters: the key-value blob
store is an explicit association list, network responses are explicit
inputs, and SHA-256 is an abstract `HashModel` parameter, so that every
repository function stays a computable Lean definition over those
inputs.
-/

namespace LinkArchiver

/-- ArchivalRule from configuration.go: kind is "hostname" or "mimetype"
(the synthesized trailing default rule carries kind "default"). -/
structure ArchivalRule where
  kind : String
  pattern : String
  archivalTool : String
deriving Repr, DecidableEq

/-- configuration from configuration.go (the fields the pipeline reads). -/
structure Configuration where
  archivalRules : List ArchivalRule
  defaultArchivalTool : String
deriving Repr, DecidableEq

/-- Go strings.HasPrefix, on the character lists so the kernel can
evaluate it on literals. -/
def goHasPrefix (s p : String) : Bool := p.data.isPrefixOf s.data

/-- Go strings.HasSuffix. -/
def goHasSuffix (s p : String) : Bool := p.data.isSuffixOf s.data

/-- Drop the first n characters of a string (realises strings.TrimPrefix
once the prefix is known to be present, e.g. TrimPrefix(p, "*.")). -/
def goDrop (s : String) (n : Nat) : String := String.mk (s.data.drop n)

/-- Drop the last n characters of a string (realises strings.TrimSuffix
once the suffix is known to be present, e.g. TrimSuffix(p, "/*")). -/
def goDropRight (s : String) (n : Nat) : String :=
  String.mk (s.data.take (s.data.length - n))

/-- hostnameMatches from link_extractor.go (ArchiveProcessor): exact match, or
wildcard pattern of the form *.suffix matching suffix itself or any
hostname ending in "." ++ suffix.  Case-sensitive throughout. -/
def hostnameMatches (hostname pattern : String) : Bool :=
  if hostname = pattern then
    true
  else if goHasPrefix pattern "*." then
    let suffix := goDrop pattern 2
    if suffix = "" then
      false
    else
      hostname = suffix || goHasSuffix hostname ("." ++ suffix)
  else
    false

/-- mimeTypeMatches from link_extractor.go (ArchiveProcessor): exact match, or
a pattern ending in "/*" matching any MIME type whose prefix up to and
including the slash equals the pattern's prefix. -/
def mimeTypeMatches (mimeType pattern : String) : Bool :=
  if mimeType = pattern then
    true
  else if goHasSuffix pattern "/*" then
    let p := goDropRight pattern 2
    goHasPrefix mimeType (p ++ "/")
  else
    false

/-- ruleMatches from link_extractor.go (ArchiveProcessor): a rule with an
empty kind never matches; otherwise an empty pattern always matches;
otherwise dispatch on the kind, unknown kinds never matching. -/
def ruleMatches (hostname mimeType : String) (rule : ArchivalRule) : Bool :=
  if rule.kind = "" then
    false
  else if rule.pattern = "" then
    true
  else if rule.kind = "hostname" then
    hostnameMatches hostname rule.pattern
  else if rule.kind = "mimetype" then
    mimeTypeMatches mimeType rule.pattern
  else
    false

/-- findArchivalTool from link_extractor.go (ArchiveProcessor), after the
hostname has been extracted from the URL (url.Parse yielding "" on
failure): first rule in order whose predicate matches wins; an exhausted
rule list falls back to the sentinel "do_nothing". -/
def findArchivalTool (hostname mimeType : String) : List ArchivalRule → String
  | [] => "do_nothing"
  | rule :: rest =>
    if ruleMatches hostname mimeType rule then
      rule.archivalTool
    else
      findArchivalTool hostname mimeType rest

/-- URLMetadata as produced by the content detector (content_detector.go):
MIME type, ETag (quotes already stripped, "" when absent) and size. -/
structure URLMetadata where
  mimeType : String
  etag : String
  size : Int
deriving Repr, DecidableEq

/-- ArchivedFile from archiver/archiver.go: the fetched artifact. Bytes are
modelled as a list of naturals. -/
structure ArchivedFile where
  filename : String
  data : List Nat
  mimeType : String
  size : Int
deriving Repr, DecidableEq

/-- ArchiveMetadata from storage.go.  `archivedAt` is an abstract clock
tick; `etag` and `contentHash` use "" for the omitted JSON field. -/
structure ArchiveMetadata where
  postID : String
  originalURL : String
  fileID : String
  filename : String
  mimeType : String
  archivedAt : Nat
  toolUsed : String
  size : Int
  etag : String
  contentHash : String
deriving Repr, DecidableEq

/-- A value in the key-value blob store, as the storage layer marshals it:
a JSON array of per-post records, a single global record, or bytes that
fail to unmarshal as the requested shape (`corrupt`; a `metaSingle` read
as a list, or a `metaList` read as a single record, also fails). -/
inductive KVValue where
  | metaList (l : List ArchiveMetadata)
  | metaSingle (m : ArchiveMetadata)
  | corrupt
deriving Repr, DecidableEq

/-- The key-value blob store: an association list, newest binding first.
The backend itself is modelled as reliable (KVGet/KVSet never fail), so
the appErr branches of storage.go are unreachable in the model. -/
abbrev KVStore := List (String × KVValue)

def kvGet (store : KVStore) (key : String) : Option KVValue :=
  (store.find? (fun e => e.1 = key)).map (·.2)

def kvSet (store : KVStore) (key : String) (v : KVValue) : KVStore :=
  (key, v) :: store

/-- crypto/sha256 + hex.EncodeToString, abstracted: `hashString` hashes the
UTF-8 bytes of a string (used for KV keys), `hashBytes` hashes raw
artifact bytes (used for content hashes).  Both stand for the same
SHA-256, so key hashing and content hashing stay consistent per model. -/
structure HashModel where
  hashString : String → String
  hashBytes : List Nat → String

/-- getArchiveMetadataKey from storage.go: "archive_post_" + postID + "_" +
hex(sha256(url)). -/
def getArchiveMetadataKey (h : HashModel) (postID url : String) : String :=
  "archive_post_" ++ postID ++ "_" ++ h.hashString url

/-- getGlobalArchiveKey from storage.go: "archive_url_" + hex(sha256(url)). -/
def getGlobalArchiveKey (h : HashModel) (url : String) : String :=
  "archive_url_" ++ h.hashString url

/-- IsURLAlreadyArchived from storage.go: true iff the per-post key holds a
list with an entry whose OriginalURL equals the URL exactly; a missing
key or bytes that fail to unmarshal count as not archived. -/
def IsURLAlreadyArchived (h : HashModel) (store : KVStore) (postID url : String) : Bool :=
  match kvGet store (getArchiveMetadataKey h postID url) with
  | none => false
  | some (KVValue.metaList l) => l.any (fun m => m.originalURL = url)
  | some _ => false

/-- GetExistingArchiveForURL from storage.go: the single global record, none
when absent, an error when the stored bytes fail to unmarshal. -/
def GetExistingArchiveForURL (h : HashModel) (store : KVStore) (url : String) :
    Except String (Option ArchiveMetadata) :=
  match kvGet store (getGlobalArchiveKey h url) with
  | none => Except.ok none
  | some (KVValue.metaSingle m) => Except.ok (some m)
  | some _ => Except.error "failed to unmarshal existing archive metadata"

/-- StoreArchiveMetadata from storage.go: read-modify-write append to the
per-post list; bytes that fail to unmarshal restart the list fresh. -/
def StoreArchiveMetadata (h : HashModel) (store : KVStore) (m : ArchiveMetadata) : KVStore :=
  let key := getArchiveMetadataKey h m.postID m.originalURL
  let newList : List ArchiveMetadata :=
    match kvGet store key with
    | some (KVValue.metaList l) => l ++ [m]
    | some _ => [m]
    | none => [m]
  kvSet store key (KVValue.metaList newList)

/-- StoreGlobalArchiveMetadata from storage.go: overwrite the single global
record for the URL. -/
def StoreGlobalArchiveMetadata (h : HashModel) (store : KVStore) (m : ArchiveMetadata) : KVStore :=
  kvSet store (getGlobalArchiveKey h m.originalURL) (KVValue.metaSingle m)

/-- CreateMetadataForExistingFile from storage.go: a fresh record pointing
at the already-stored artifact, stamped with the current time. -/
def CreateMetadataForExistingFile (now : Nat) (postID url : String)
    (ex : ArchiveMetadata) : ArchiveMetadata :=
  { postID := postID
    originalURL := url
    fileID := ex.fileID
    filename := ex.filename
    mimeType := ex.mimeType
    archivedAt := now
    toolUsed := ex.toolUsed
    size := ex.size
    etag := ex.etag
    contentHash := ex.contentHash }

/-- The metadata record StoreArchivedFile (storage.go) returns after a
successful upload: fileID from the upload, content hash of the bytes. -/
def StoreArchivedFile (h : HashModel) (now : Nat) (uploadedFileID : String)
    (postID url : String) (f : ArchivedFile) (toolName : String) : ArchiveMetadata :=
  { postID := postID
    originalURL := url
    fileID := uploadedFileID
    filename := f.filename
    mimeType := f.mimeType
    archivedAt := now
    toolUsed := toolName
    size := f.size
    etag := ""
    contentHash := h.hashBytes f.data }

/-- Observable actions of one run of the per-URL pipeline, in order:
network probes, tool invocations, artifact uploads, thread replies and
metadata writes. -/
inductive Event where
  | probe (url : String)
  | detectMime (url : String)
  | archiveCall (tool url mimeType : String)
  | uploadFile (data : List Nat) (filename : String)
  | replyWithAttachment (postID fileID url filename mimeType : String)
      (size : Int) (originalPostID : String)
  | replyWithError (postID url : String)
  | storePerPost (m : ArchiveMetadata)
  | storeGlobal (m : ArchiveMetadata)
deriving Repr, DecidableEq

/-- The environment of one pipeline run: everything the external
collaborators (HTTP stack, plugin API) answer during the run. -/
structure Env where
  now : Nat
  hostname : String
  probeResult : Option URLMetadata
  detectMimeResult : Except String String
  registeredTools : List String
  archiveResult : String → Except String ArchivedFile
  uploadResult : Except String String
  replyAttachmentOk : Bool

/-- The archivalTools map after registerDefaultTools (link_extractor.go). -/
def defaultRegisteredTools : List String := ["direct_download", "obelisk"]

/-- The ETag-reuse terminal of processURL: build a record for the existing
artifact, reply with the attachment (original post referenced), and only
then — and only when the reply succeeded — persist the per-post record. -/
def etagReuse (h : HashModel) (env : Env) (postID url : String)
    (ex : ArchiveMetadata) (store : KVStore) : List Event × KVStore :=
  let metadata := CreateMetadataForExistingFile env.now postID url ex
  let replyEv := Event.replyWithAttachment postID metadata.fileID url
    metadata.filename metadata.mimeType metadata.size ex.postID
  if env.replyAttachmentOk then
    ([replyEv, Event.storePerPost metadata], StoreArchiveMetadata h store metadata)
  else
    ([replyEv], store)

/-- The Go snippet `if urlMetadata != nil && urlMetadata.ETag != "" {
metadata.ETag = urlMetadata.ETag }` shared by the hash-reuse and
fresh-archive terminals. -/
def withProbeEtag (urlMetadata : Option URLMetadata) (md : ArchiveMetadata) :
    ArchiveMetadata :=
  match urlMetadata with
  | some um => if um.etag ≠ "" then { md with etag := um.etag } else md
  | none => md

/-- The hash-reuse terminal of processURL: reuse the existing artifact,
carry a freshly observed non-empty ETag into the per-post record, reply,
persist per-post, and refresh the global record's ETag and timestamp
exactly when a non-empty ETag was observed. -/
def hashReuse (h : HashModel) (env : Env) (postID url : String)
    (urlMetadata : Option URLMetadata) (ex : ArchiveMetadata)
    (store : KVStore) : List Event × KVStore :=
  let metadata := withProbeEtag urlMetadata (CreateMetadataForExistingFile env.now postID url ex)
  let replyEv := Event.replyWithAttachment postID metadata.fileID url
    metadata.filename metadata.mimeType metadata.size ex.postID
  if env.replyAttachmentOk then
    let store1 := StoreArchiveMetadata h store metadata
    match urlMetadata with
    | some um =>
      if um.etag ≠ "" then
        let ex' := { ex with etag := um.etag, archivedAt := env.now }
        ([replyEv, Event.storePerPost metadata, Event.storeGlobal ex'],
          StoreGlobalArchiveMetadata h store1 ex')
      else
        ([replyEv, Event.storePerPost metadata], store1)
    | none => ([replyEv, Event.storePerPost metadata], store1)
  else
    ([replyEv], store)

/-- The fresh-archive terminal of processURL: upload the new bytes, carry a
freshly observed ETag, reply (a reply failure is logged but does not stop
the run), persist the per-post record, then overwrite the global one. -/
def freshArchive (h : HashModel) (env : Env) (postID url : String)
    (urlMetadata : Option URLMetadata) (toolName : String)
    (archivedFile : ArchivedFile) (store : KVStore) : List Event × KVStore :=
  let uploadEv := Event.uploadFile archivedFile.data archivedFile.filename
  match env.uploadResult with
  | Except.error _ => ([uploadEv, Event.replyWithError postID url], store)
  | Except.ok fileID =>
    let metadata := withProbeEtag urlMetadata
      (StoreArchivedFile h env.now fileID postID url archivedFile toolName)
    let replyEv := Event.replyWithAttachment postID metadata.fileID url
      metadata.filename metadata.mimeType metadata.size ""
    let store1 := StoreArchiveMetadata h store metadata
    let store2 := StoreGlobalArchiveMetadata h store1 metadata
    ([uploadEv, replyEv, Event.storePerPost metadata, Event.storeGlobal metadata],
      store2)

/-- The stretch of processURL after a successful tool invocation: compare
the new content hash against the global record's stored hash when one
exists; a match reuses the old artifact, anything else stores fresh. -/
def afterArchive (h : HashModel) (env : Env) (postID url : String)
    (urlMetadata : Option URLMetadata) (existingArchive : Option ArchiveMetadata)
    (toolName : String) (archivedFile : ArchivedFile) (store : KVStore) :
    List Event × KVStore :=
  match existingArchive with
  | some ex =>
    if ex.contentHash ≠ "" then
      if ex.contentHash = h.hashBytes archivedFile.data then
        hashReuse h env postID url urlMetadata ex store
      else
        freshArchive h env postID url urlMetadata toolName archivedFile store
    else
      freshArchive h env postID url urlMetadata toolName archivedFile store
  | none => freshArchive h env postID url urlMetadata toolName archivedFile store

/-- The stretch of processURL from rule-based tool selection on: an empty
tool name or an unregistered tool is an error reply, the "do_nothing"
sentinel a silent skip, and otherwise the tool's Archive runs. -/
def selectToolAndArchive (h : HashModel) (env : Env) (postID url : String)
    (config : Configuration) (urlMetadata : Option URLMetadata)
    (existingArchive : Option ArchiveMetadata) (mimeType : String)
    (store : KVStore) : List Event × KVStore :=
  if findArchivalTool env.hostname mimeType config.archivalRules = "" then
    ([Event.replyWithError postID url], store)
  else if findArchivalTool env.hostname mimeType config.archivalRules = "do_nothing" then
    ([], store)
  else if findArchivalTool env.hostname mimeType config.archivalRules ∈ env.registeredTools then
    match env.archiveResult (findArchivalTool env.hostname mimeType config.archivalRules) with
    | Except.error _ =>
      ([Event.archiveCall (findArchivalTool env.hostname mimeType config.archivalRules)
          url mimeType,
        Event.replyWithError postID url], store)
    | Except.ok f =>
      (Event.archiveCall (findArchivalTool env.hostname mimeType config.archivalRules)
          url mimeType ::
        (afterArchive h env postID url urlMetadata existingArchive
          (findArchivalTool env.hostname mimeType config.archivalRules) f store).1,
        (afterArchive h env postID url urlMetadata existingArchive
          (findArchivalTool env.hostname mimeType config.archivalRules) f store).2)
  else
    ([Event.replyWithError postID url], store)

/-- The full-detection fallback of processURL's MIME resolution: a
detection failure is an error reply, success continues into tool
selection. -/
def detectFallback (h : HashModel) (env : Env) (postID url : String)
    (config : Configuration) (urlMetadata : Option URLMetadata)
    (existingArchive : Option ArchiveMetadata) (store : KVStore) :
    List Event × KVStore :=
  match env.detectMimeResult with
  | Except.error _ => ([Event.detectMime url, Event.replyWithError postID url], store)
  | Except.ok mt =>
    (Event.detectMime url ::
      (selectToolAndArchive h env postID url config urlMetadata existingArchive mt store).1,
      (selectToolAndArchive h env postID url config urlMetadata existingArchive mt store).2)

/-- The MIME-resolution stretch of processURL: the probe's MIME type when
non-empty, otherwise the full detection pass. -/
def resolveMimeAndGo (h : HashModel) (env : Env) (postID url : String)
    (config : Configuration) (urlMetadata : Option URLMetadata)
    (existingArchive : Option ArchiveMetadata) (store : KVStore) :
    List Event × KVStore :=
  match urlMetadata with
  | some um =>
    if um.mimeType ≠ "" then
      selectToolAndArchive h env postID url config urlMetadata existingArchive
        um.mimeType store
    else
      detectFallback h env postID url config urlMetadata existingArchive store
  | none => detectFallback h env postID url config none existingArchive store

/-- The global record as processURL sees it: a lookup error is logged and
treated as no existing archive. -/
def existingArchiveOf (h : HashModel) (store : KVStore) (url : String) :
    Option ArchiveMetadata :=
  match GetExistingArchiveForURL h store url with
  | Except.ok r => r
  | Except.error _ => none

/-- Everything processURL does after the dedup check and the probe: the
ETag comparison against the global record, then MIME resolution, tool
selection and archival. -/
def afterDedup (h : HashModel) (env : Env) (postID url : String)
    (config : Configuration) (store : KVStore) : List Event × KVStore :=
  match existingArchiveOf h store url, env.probeResult with
  | some ex, some um =>
    if ex.etag ≠ "" ∧ um.etag ≠ "" ∧ ex.etag = um.etag then
      etagReuse h env postID url ex store
    else
      resolveMimeAndGo h env postID url config (some um) (some ex) store
  | some ex, none => resolveMimeAndGo h env postID url config none (some ex) store
  | none, um => resolveMimeAndGo h env postID url config um none store

/-- processURL from link_extractor.go (ArchiveProcessor): the per-URL
pipeline.  Returns the ordered trace of observable actions and the
resulting key-value store. -/
def processURL (h : HashModel) (env : Env) (postID url : String)
    (config : Configuration) (store : KVStore) : List Event × KVStore :=
  if IsURLAlreadyArchived h store postID url then
    ([], store)
  else
    (Event.probe url :: (afterDedup h env postID url config store).1,
      (afterDedup h env postID url config store).2)

end LinkArchiver

namespace LinkArchiver

/-- C3 -- For every rule sequence, hostname (including the empty hostname an
unparsable URL yields) and MIME type, findArchivalTool returns the tool
of the first rule whose predicate matches, and "do_nothing" when the
sequence (including the empty one) is exhausted without a match. -/
theorem findArchivalTool_first_match (hostname mimeType : String)
    (rules : List ArchivalRule) :
    findArchivalTool hostname mimeType rules =
      match rules.find? (fun r => ruleMatches hostname mimeType r) with
      | some r => r.archivalTool
      | none => "do_nothing" := by
  induction rules with
  | nil => rfl
  | cons rule rest ih =>
    by_cases h : ruleMatches hostname mimeType rule
    · simp [findArchivalTool, List.find?, h]
    · simp only [findArchivalTool, h, if_false, Bool.false_eq_true]
      rw [List.find?_cons_of_neg _ (by simp [h])]
      exact ih

/-- C9 -- The wildcard pattern predicates satisfy the specification's
membership table: *.example.com matches example.com, www.example.com and
a.b.example.com but not otherexample.com, com, or case-differing variants;
image/* matches image/png and image/jpeg but not image or
application/image. -/
theorem wildcard_pattern_membership_table :
    hostnameMatches "example.com" "*.example.com" = true
    ∧ hostnameMatches "www.example.com" "*.example.com" = true
    ∧ hostnameMatches "a.b.example.com" "*.example.com" = true
    ∧ hostnameMatches "otherexample.com" "*.example.com" = false
    ∧ hostnameMatches "com" "*.example.com" = false
    ∧ hostnameMatches "www.EXAMPLE.com" "*.example.com" = false
    ∧ hostnameMatches "Example.com" "*.example.com" = false
    ∧ mimeTypeMatches "image/png" "image/*" = true
    ∧ mimeTypeMatches "image/jpeg" "image/*" = true
    ∧ mimeTypeMatches "image" "image/*" = false
    ∧ mimeTypeMatches "application/image" "image/*" = false := by
  decide

/-- C5 counterexample -- a rule whose pattern is empty but whose kind is
also empty does not match: ruleMatches validates the kind first, so the
claim that an empty pattern matches regardless of the kind field
(including an empty kind) is false. -/
theorem empty_pattern_empty_kind_rule_never_matches :
    ruleMatches "example.com" "application/pdf"
      { kind := "", pattern := "", archivalTool := "direct_download" } = false := by
  decide

/-- C5 amended -- for every rule whose pattern is empty and whose kind is
non-empty (including unrecognized kinds such as "default"), ruleMatches
returns true for every hostname and every MIME type; an empty kind never
matches. -/
theorem empty_pattern_rule_matches_iff_kind_nonempty
    (hostname mimeType kind tool : String) (hk : kind ≠ "") :
    ruleMatches hostname mimeType
      { kind := kind, pattern := "", archivalTool := tool } = true := by
  simp [ruleMatches, hk]

/-- Witness for the C5 amended theorem at the synthesized default rule's
kind "default". -/
theorem empty_pattern_rule_matches_iff_kind_nonempty_witness :
    ("default" : String) ≠ ""
    ∧ ruleMatches "any-domain.com" "any/type"
        { kind := "default", pattern := "", archivalTool := "do_nothing" } = true :=
  ⟨by decide, empty_pattern_rule_matches_iff_kind_nonempty
    "any-domain.com" "any/type" "default" "do_nothing" (by decide)⟩

/-- C1 -- When the global record and the fresh probe both carry the same
non-empty ETag, processURL never invokes any archival tool: it probes,
replies with the existing artifact, and — once the reply succeeded —
persists the per-post record and terminates. -/
theorem etag_match_reuses_without_tool_invocation
    (h : HashModel) (env : Env) (postID url : String) (config : Configuration)
    (store : KVStore) (ex : ArchiveMetadata) (um : URLMetadata)
    (hded : IsURLAlreadyArchived h store postID url = false)
    (hex : GetExistingArchiveForURL h store url = Except.ok (some ex))
    (hprobe : env.probeResult = some um)
    (hetag : ex.etag ≠ "") (hmatch : um.etag = ex.etag) :
    (processURL h env postID url config store).1 =
        Event.probe url ::
          Event.replyWithAttachment postID ex.fileID url ex.filename ex.mimeType
            ex.size ex.postID ::
          (if env.replyAttachmentOk then
            [Event.storePerPost (CreateMetadataForExistingFile env.now postID url ex)]
          else [])
      ∧ (processURL h env postID url config store).2 =
          (if env.replyAttachmentOk then
            StoreArchiveMetadata h store (CreateMetadataForExistingFile env.now postID url ex)
          else store)
      ∧ ∀ t u m, Event.archiveCall t u m ∉ (processURL h env postID url config store).1 := by
  have hcond : ex.etag ≠ "" ∧ um.etag ≠ "" ∧ ex.etag = um.etag :=
    ⟨hetag, by rw [hmatch]; exact hetag, hmatch.symm⟩
  have hres : processURL h env postID url config store =
      (Event.probe url :: (etagReuse h env postID url ex store).1,
        (etagReuse h env postID url ex store).2) := by
    unfold processURL afterDedup existingArchiveOf
    rw [hded, hex, hprobe]
    simp [hcond]
  rcases hro : env.replyAttachmentOk with _ | _ <;>
    simp [hres, etagReuse, CreateMetadataForExistingFile, hro]

def c1Hash : HashModel := { hashString := fun _ => "H", hashBytes := fun _ => "B" }

def c1Existing : ArchiveMetadata :=
  { postID := "p0", originalURL := "https://e.com/f", fileID := "F1"
    filename := "f.pdf", mimeType := "application/pdf", archivedAt := 5
    toolUsed := "direct_download", size := 3, etag := "abc", contentHash := "HH" }

def c1Store : KVStore := [("archive_url_H", KVValue.metaSingle c1Existing)]

def c1Probe : URLMetadata := { mimeType := "application/pdf", etag := "abc", size := 3 }

def c1Env : Env :=
  { now := 9, hostname := "e.com", probeResult := some c1Probe
    detectMimeResult := Except.ok "application/pdf"
    registeredTools := defaultRegisteredTools
    archiveResult := fun _ => Except.error "unused"
    uploadResult := Except.ok "F2", replyAttachmentOk := true }

def c1Config : Configuration :=
  { archivalRules := [{ kind := "default", pattern := "", archivalTool := "direct_download" }]
    defaultArchivalTool := "direct_download" }

/-- Witness for the C1 theorem at a concrete matching-ETag run. -/
theorem etag_match_reuses_without_tool_invocation_witness :
    (IsURLAlreadyArchived c1Hash c1Store "p1" "https://e.com/f" = false
      ∧ GetExistingArchiveForURL c1Hash c1Store "https://e.com/f" =
          Except.ok (some c1Existing)
      ∧ c1Env.probeResult = some c1Probe
      ∧ c1Existing.etag ≠ "" ∧ c1Probe.etag = c1Existing.etag)
    ∧ ∀ t u m, Event.archiveCall t u m ∉
        (processURL c1Hash c1Env "p1" "https://e.com/f" c1Config c1Store).1 :=
  ⟨⟨by decide, by rfl, by decide, by decide, by decide⟩,
    (etag_match_reuses_without_tool_invocation c1Hash c1Env "p1" "https://e.com/f"
      c1Config c1Store c1Existing c1Probe (by decide) (by rfl) (by decide)
      (by decide) (by decide)).2.2⟩

theorem append_ne_of_ne_at {α} (a b as bs : List α) (i : Nat)
    (hia : i < a.length) (hib : i < b.length) (hne : a[i]? ≠ b[i]?) :
    a ++ as ≠ b ++ bs := by
  intro h
  apply hne
  have h2 := congrArg (fun l => l[i]?) h
  simp only at h2
  rwa [List.getElem?_append_left hia, List.getElem?_append_left hib] at h2

/-- A per-post key never equals a global key: the two literal prefixes
differ at character index 8 ('p' versus 'u'). -/
theorem perPostKey_ne_globalKey (h : HashModel) (p u u' : String) :
    getArchiveMetadataKey h p u ≠ getGlobalArchiveKey h u' := by
  unfold getArchiveMetadataKey getGlobalArchiveKey
  intro heq
  have hd := congrArg String.data heq
  simp only [String.data_append, List.append_assoc] at hd
  exact append_ne_of_ne_at "archive_post_".data "archive_url_".data _ _ 8
    (by decide) (by decide) (by decide) hd

theorem kvGet_kvSet_self (s : KVStore) (k : String) (v : KVValue) :
    kvGet (kvSet s k v) k = some v := by
  simp [kvGet, kvSet]

theorem kvGet_kvSet_ne (s : KVStore) (k k' : String) (v : KVValue)
    (hne : k' ≠ k) : kvGet (kvSet s k v) k' = kvGet s k' := by
  have hks : k ≠ k' := fun h => hne h.symm
  simp [kvGet, kvSet, List.find?, hks]

/-- Writing a per-post record marks its (post, URL) pair as archived. -/
theorem isArchived_after_storePerPost (h : HashModel) (st : KVStore)
    (m : ArchiveMetadata) :
    IsURLAlreadyArchived h (StoreArchiveMetadata h st m) m.postID m.originalURL = true := by
  unfold IsURLAlreadyArchived StoreArchiveMetadata
  simp only [kvGet_kvSet_self]
  cases hk : kvGet st (getArchiveMetadataKey h m.postID m.originalURL) with
  | none => simp
  | some v => cases v <;> simp

/-- Writing the global record never touches a per-post key. -/
theorem isArchived_after_storeGlobal (h : HashModel) (st : KVStore)
    (g : ArchiveMetadata) (p u : String) :
    IsURLAlreadyArchived h (StoreGlobalArchiveMetadata h st g) p u =
      IsURLAlreadyArchived h st p u := by
  unfold IsURLAlreadyArchived StoreGlobalArchiveMetadata
  rw [kvGet_kvSet_ne _ _ _ _ (perPostKey_ne_globalKey h p u g.originalURL)]

theorem withProbeEtag_postID (um : Option URLMetadata) (md : ArchiveMetadata) :
    (withProbeEtag um md).postID = md.postID := by
  cases um with
  | none => rfl
  | some u => by_cases he : u.etag ≠ "" <;> simp [withProbeEtag, he]

theorem withProbeEtag_originalURL (um : Option URLMetadata) (md : ArchiveMetadata) :
    (withProbeEtag um md).originalURL = md.originalURL := by
  cases um with
  | none => rfl
  | some u => by_cases he : u.etag ≠ "" <;> simp [withProbeEtag, he]

theorem withProbeEtag_fileID (um : Option URLMetadata) (md : ArchiveMetadata) :
    (withProbeEtag um md).fileID = md.fileID := by
  cases um with
  | none => rfl
  | some u => by_cases he : u.etag ≠ "" <;> simp [withProbeEtag, he]

theorem withProbeEtag_filename (um : Option URLMetadata) (md : ArchiveMetadata) :
    (withProbeEtag um md).filename = md.filename := by
  cases um with
  | none => rfl
  | some u => by_cases he : u.etag ≠ "" <;> simp [withProbeEtag, he]

theorem withProbeEtag_mimeType (um : Option URLMetadata) (md : ArchiveMetadata) :
    (withProbeEtag um md).mimeType = md.mimeType := by
  cases um with
  | none => rfl
  | some u => by_cases he : u.etag ≠ "" <;> simp [withProbeEtag, he]

theorem withProbeEtag_size (um : Option URLMetadata) (md : ArchiveMetadata) :
    (withProbeEtag um md).size = md.size := by
  cases um with
  | none => rfl
  | some u => by_cases he : u.etag ≠ "" <;> simp [withProbeEtag, he]

theorem etagReuse_ok (h : HashModel) (env : Env) (postID url : String)
    (ex : ArchiveMetadata) (st : KVStore) (hro : env.replyAttachmentOk = true) :
    etagReuse h env postID url ex st =
      ([Event.replyWithAttachment postID ex.fileID url ex.filename ex.mimeType
          ex.size ex.postID,
        Event.storePerPost (CreateMetadataForExistingFile env.now postID url ex)],
        StoreArchiveMetadata h st (CreateMetadataForExistingFile env.now postID url ex)) := by
  unfold etagReuse
  rw [hro]
  rfl

theorem etagReuse_replyFailed (h : HashModel) (env : Env) (postID url : String)
    (ex : ArchiveMetadata) (st : KVStore) (hro : env.replyAttachmentOk = false) :
    etagReuse h env postID url ex st =
      ([Event.replyWithAttachment postID ex.fileID url ex.filename ex.mimeType
          ex.size ex.postID], st) := by
  unfold etagReuse
  rw [hro]
  rfl

theorem freshArchive_uploadFailed (h : HashModel) (env : Env) (postID url : String)
    (um : Option URLMetadata) (tool : String) (f : ArchivedFile) (st : KVStore)
    (e : String) (hup : env.uploadResult = Except.error e) :
    freshArchive h env postID url um tool f st =
      ([Event.uploadFile f.data f.filename, Event.replyWithError postID url], st) := by
  unfold freshArchive
  rw [hup]

theorem freshArchive_ok (h : HashModel) (env : Env) (postID url : String)
    (um : Option URLMetadata) (tool : String) (f : ArchivedFile) (st : KVStore)
    (fid : String) (hup : env.uploadResult = Except.ok fid) :
    freshArchive h env postID url um tool f st =
      ([Event.uploadFile f.data f.filename,
        Event.replyWithAttachment postID
          (withProbeEtag um (StoreArchivedFile h env.now fid postID url f tool)).fileID url
          (withProbeEtag um (StoreArchivedFile h env.now fid postID url f tool)).filename
          (withProbeEtag um (StoreArchivedFile h env.now fid postID url f tool)).mimeType
          (withProbeEtag um (StoreArchivedFile h env.now fid postID url f tool)).size "",
        Event.storePerPost (withProbeEtag um (StoreArchivedFile h env.now fid postID url f tool)),
        Event.storeGlobal (withProbeEtag um (StoreArchivedFile h env.now fid postID url f tool))],
        StoreGlobalArchiveMetadata h
          (StoreArchiveMetadata h st (withProbeEtag um (StoreArchivedFile h env.now fid postID url f tool)))
          (withProbeEtag um (StoreArchivedFile h env.now fid postID url f tool))) := by
  unfold freshArchive
  rw [hup]

theorem hashReuse_replyFailed (h : HashModel) (env : Env) (postID url : String)
    (um : Option URLMetadata) (ex : ArchiveMetadata) (st : KVStore)
    (hro : env.replyAttachmentOk = false) :
    hashReuse h env postID url um ex st =
      ([Event.replyWithAttachment postID ex.fileID url ex.filename ex.mimeType
          ex.size ex.postID], st) := by
  unfold hashReuse
  rw [hro]
  simp [withProbeEtag_fileID, withProbeEtag_filename, withProbeEtag_mimeType,
    withProbeEtag_size, CreateMetadataForExistingFile]

theorem hashReuse_ok_newEtag (h : HashModel) (env : Env) (postID url : String)
    (u : URLMetadata) (ex : ArchiveMetadata) (st : KVStore)
    (hro : env.replyAttachmentOk = true) (he : u.etag ≠ "") :
    hashReuse h env postID url (some u) ex st =
      ([Event.replyWithAttachment postID ex.fileID url ex.filename ex.mimeType
          ex.size ex.postID,
        Event.storePerPost
          { CreateMetadataForExistingFile env.now postID url ex with etag := u.etag },
        Event.storeGlobal { ex with etag := u.etag, archivedAt := env.now }],
        StoreGlobalArchiveMetadata h
          (StoreArchiveMetadata h st
            { CreateMetadataForExistingFile env.now postID url ex with etag := u.etag })
          { ex with etag := u.etag, archivedAt := env.now }) := by
  unfold hashReuse
  rw [hro]
  simp [withProbeEtag, he, CreateMetadataForExistingFile]

theorem hashReuse_ok_noNewEtag (h : HashModel) (env : Env) (postID url : String)
    (um : Option URLMetadata) (ex : ArchiveMetadata) (st : KVStore)
    (hro : env.replyAttachmentOk = true)
    (he : um = none ∨ ∃ u, um = some u ∧ u.etag = "") :
    hashReuse h env postID url um ex st =
      ([Event.replyWithAttachment postID ex.fileID url ex.filename ex.mimeType
          ex.size ex.postID,
        Event.storePerPost (CreateMetadataForExistingFile env.now postID url ex)],
        StoreArchiveMetadata h st (CreateMetadataForExistingFile env.now postID url ex)) := by
  unfold hashReuse
  rw [hro]
  rcases he with he | ⟨u, he, hu⟩
  · subst he
    simp [withProbeEtag, CreateMetadataForExistingFile]
  · subst he
    simp [withProbeEtag, hu, CreateMetadataForExistingFile]

theorem freshArchive_marks (h : HashModel) (env : Env) (postID url : String)
    (um : Option URLMetadata) (tool : String) (f : ArchivedFile) (st : KVStore)
    (hmem : ∃ m, Event.storePerPost m ∈ (freshArchive h env postID url um tool f st).1) :
    IsURLAlreadyArchived h (freshArchive h env postID url um tool f st).2 postID url = true := by
  obtain ⟨m, hm⟩ := hmem
  cases hup : env.uploadResult with
  | error e =>
    rw [freshArchive_uploadFailed h env postID url um tool f st e hup] at hm
    simp at hm
  | ok fid =>
    rw [freshArchive_ok h env postID url um tool f st fid hup]
    simp only
    rw [isArchived_after_storeGlobal]
    have := isArchived_after_storePerPost h st
      (withProbeEtag um (StoreArchivedFile h env.now fid postID url f tool))
    rwa [withProbeEtag_postID, withProbeEtag_originalURL] at this

theorem hashReuse_marks (h : HashModel) (env : Env) (postID url : String)
    (um : Option URLMetadata) (ex : ArchiveMetadata) (st : KVStore)
    (hmem : ∃ m, Event.storePerPost m ∈ (hashReuse h env postID url um ex st).1) :
    IsURLAlreadyArchived h (hashReuse h env postID url um ex st).2 postID url = true := by
  obtain ⟨m, hm⟩ := hmem
  have hbase := isArchived_after_storePerPost h st
    (CreateMetadataForExistingFile env.now postID url ex)
  cases hro : env.replyAttachmentOk with
  | false =>
    rw [hashReuse_replyFailed h env postID url um ex st hro] at hm
    simp at hm
  | true =>
    cases um with
    | none =>
      rw [hashReuse_ok_noNewEtag h env postID url none ex st hro (Or.inl rfl)]
      exact hbase
    | some u =>
      by_cases he : u.etag = ""
      · rw [hashReuse_ok_noNewEtag h env postID url (some u) ex st hro
          (Or.inr ⟨u, rfl, he⟩)]
        exact hbase
      · rw [hashReuse_ok_newEtag h env postID url u ex st hro he]
        simp only
        rw [isArchived_after_storeGlobal]
        have := isArchived_after_storePerPost h st
          { CreateMetadataForExistingFile env.now postID url ex with etag := u.etag }
        exact this

theorem etagReuse_marks (h : HashModel) (env : Env) (postID url : String)
    (ex : ArchiveMetadata) (st : KVStore)
    (hmem : ∃ m, Event.storePerPost m ∈ (etagReuse h env postID url ex st).1) :
    IsURLAlreadyArchived h (etagReuse h env postID url ex st).2 postID url = true := by
  obtain ⟨m, hm⟩ := hmem
  cases hro : env.replyAttachmentOk with
  | false =>
    rw [etagReuse_replyFailed h env postID url ex st hro] at hm
    simp at hm
  | true =>
    rw [etagReuse_ok h env postID url ex st hro]
    exact isArchived_after_storePerPost h st
      (CreateMetadataForExistingFile env.now postID url ex)

theorem afterArchive_marks (h : HashModel) (env : Env) (postID url : String)
    (um : Option URLMetadata) (exArch : Option ArchiveMetadata)
    (tool : String) (f : ArchivedFile) (st : KVStore)
    (hmem : ∃ m, Event.storePerPost m ∈
      (afterArchive h env postID url um exArch tool f st).1) :
    IsURLAlreadyArchived h (afterArchive h env postID url um exArch tool f st).2
      postID url = true := by
  unfold afterArchive at hmem ⊢
  cases exArch with
  | none => exact freshArchive_marks h env postID url um tool f st hmem
  | some ex =>
    simp only at hmem ⊢
    by_cases h1 : ex.contentHash ≠ ""
    · rw [if_pos h1] at hmem ⊢
      by_cases h2 : ex.contentHash = h.hashBytes f.data
      · rw [if_pos h2] at hmem ⊢
        exact hashReuse_marks h env postID url um ex st hmem
      · rw [if_neg h2] at hmem ⊢
        exact freshArchive_marks h env postID url um tool f st hmem
    · rw [if_neg h1] at hmem ⊢
      exact freshArchive_marks h env postID url um tool f st hmem

theorem selectToolAndArchive_marks (h : HashModel) (env : Env) (postID url : String)
    (config : Configuration) (um : Option URLMetadata)
    (exArch : Option ArchiveMetadata) (mt : String) (st : KVStore)
    (hmem : ∃ m, Event.storePerPost m ∈
      (selectToolAndArchive h env postID url config um exArch mt st).1) :
    IsURLAlreadyArchived h
      (selectToolAndArchive h env postID url config um exArch mt st).2
      postID url = true := by
  obtain ⟨m, hm⟩ := hmem
  unfold selectToolAndArchive at hm ⊢
  by_cases h1 : findArchivalTool env.hostname mt config.archivalRules = ""
  · rw [if_pos h1] at hm
    simp at hm
  · rw [if_neg h1] at hm ⊢
    by_cases h2 : findArchivalTool env.hostname mt config.archivalRules = "do_nothing"
    · rw [if_pos h2] at hm
      simp at hm
    · rw [if_neg h2] at hm ⊢
      by_cases h3 : findArchivalTool env.hostname mt config.archivalRules ∈
          env.registeredTools
      · rw [if_pos h3] at hm ⊢
        cases harch : env.archiveResult
            (findArchivalTool env.hostname mt config.archivalRules) with
        | error e =>
          rw [harch] at hm
          have hm2 : Event.storePerPost m ∈
              [Event.archiveCall (findArchivalTool env.hostname mt config.archivalRules)
                  url mt,
                Event.replyWithError postID url] := hm
          simp at hm2
        | ok f =>
          rw [harch] at hm
          have hm2 : Event.storePerPost m ∈
              Event.archiveCall (findArchivalTool env.hostname mt config.archivalRules)
                  url mt ::
                (afterArchive h env postID url um exArch
                  (findArchivalTool env.hostname mt config.archivalRules) f st).1 := hm
          rcases List.mem_cons.mp hm2 with hm3 | hm3
          · exact absurd hm3 (by simp)
          · show IsURLAlreadyArchived h
              (afterArchive h env postID url um exArch
                (findArchivalTool env.hostname mt config.archivalRules) f st).2
              postID url = true
            exact afterArchive_marks h env postID url um exArch
              (findArchivalTool env.hostname mt config.archivalRules) f st ⟨m, hm3⟩
      · rw [if_neg h3] at hm
        simp at hm

theorem detectFallback_marks (h : HashModel) (env : Env) (postID url : String)
    (config : Configuration) (um : Option URLMetadata)
    (exArch : Option ArchiveMetadata) (st : KVStore)
    (hmem : ∃ m, Event.storePerPost m ∈
      (detectFallback h env postID url config um exArch st).1) :
    IsURLAlreadyArchived h
      (detectFallback h env postID url config um exArch st).2 postID url = true := by
  obtain ⟨m, hm⟩ := hmem
  unfold detectFallback at hm ⊢
  cases hdet : env.detectMimeResult with
  | error e =>
    rw [hdet] at hm
    have hm2 : Event.storePerPost m ∈
        [Event.detectMime url, Event.replyWithError postID url] := hm
    simp at hm2
  | ok mt =>
    rw [hdet] at hm
    have hm2 : Event.storePerPost m ∈
        Event.detectMime url ::
          (selectToolAndArchive h env postID url config um exArch mt st).1 := hm
    rcases List.mem_cons.mp hm2 with hm3 | hm3
    · exact absurd hm3 (by simp)
    · show IsURLAlreadyArchived h
        (selectToolAndArchive h env postID url config um exArch mt st).2 postID url = true
      exact selectToolAndArchive_marks h env postID url config um exArch mt st ⟨m, hm3⟩

theorem resolveMimeAndGo_marks (h : HashModel) (env : Env) (postID url : String)
    (config : Configuration) (um : Option URLMetadata)
    (exArch : Option ArchiveMetadata) (st : KVStore)
    (hmem : ∃ m, Event.storePerPost m ∈
      (resolveMimeAndGo h env postID url config um exArch st).1) :
    IsURLAlreadyArchived h
      (resolveMimeAndGo h env postID url config um exArch st).2 postID url = true := by
  obtain ⟨m, hm⟩ := hmem
  unfold resolveMimeAndGo at hm ⊢
  cases um with
  | none => exact detectFallback_marks h env postID url config none exArch st ⟨m, hm⟩
  | some u =>
    by_cases hmt : u.mimeType ≠ ""
    · have hm2 : Event.storePerPost m ∈
          (selectToolAndArchive h env postID url config (some u) exArch
            u.mimeType st).1 := by
        have hm3 : Event.storePerPost m ∈
            (if u.mimeType ≠ "" then
              selectToolAndArchive h env postID url config (some u) exArch u.mimeType st
            else detectFallback h env postID url config (some u) exArch st).1 := hm
        rwa [if_pos hmt] at hm3
      show IsURLAlreadyArchived h
        (if u.mimeType ≠ "" then
          selectToolAndArchive h env postID url config (some u) exArch u.mimeType st
        else detectFallback h env postID url config (some u) exArch st).2 postID url = true
      rw [if_pos hmt]
      exact selectToolAndArchive_marks h env postID url config (some u) exArch
        u.mimeType st ⟨m, hm2⟩
    · have hm2 : Event.storePerPost m ∈
          (detectFallback h env postID url config (some u) exArch st).1 := by
        have hm3 : Event.storePerPost m ∈
            (if u.mimeType ≠ "" then
              selectToolAndArchive h env postID url config (some u) exArch u.mimeType st
            else detectFallback h env postID url config (some u) exArch st).1 := hm
        rwa [if_neg hmt] at hm3
      show IsURLAlreadyArchived h
        (if u.mimeType ≠ "" then
          selectToolAndArchive h env postID url config (some u) exArch u.mimeType st
        else detectFallback h env postID url config (some u) exArch st).2 postID url = true
      rw [if_neg hmt]
      exact detectFallback_marks h env postID url config (some u) exArch st ⟨m, hm2⟩

theorem afterDedup_marks (h : HashModel) (env : Env) (postID url : String)
    (config : Configuration) (st : KVStore)
    (hmem : ∃ m, Event.storePerPost m ∈ (afterDedup h env postID url config st).1) :
    IsURLAlreadyArchived h (afterDedup h env postID url config st).2 postID url = true := by
  obtain ⟨m, hm⟩ := hmem
  unfold afterDedup at hm ⊢
  cases hEA : existingArchiveOf h st url with
  | none =>
    rw [hEA] at hm
    exact resolveMimeAndGo_marks h env postID url config env.probeResult none st ⟨m, hm⟩
  | some ex =>
    rw [hEA] at hm
    cases hum : env.probeResult with
    | none =>
      rw [hum] at hm
      exact resolveMimeAndGo_marks h env postID url config none (some ex) st ⟨m, hm⟩
    | some u =>
      rw [hum] at hm
      by_cases hc : ex.etag ≠ "" ∧ u.etag ≠ "" ∧ ex.etag = u.etag
      · have hm2 : Event.storePerPost m ∈ (etagReuse h env postID url ex st).1 := by
          have hm3 : Event.storePerPost m ∈
              (if ex.etag ≠ "" ∧ u.etag ≠ "" ∧ ex.etag = u.etag then
                etagReuse h env postID url ex st
              else resolveMimeAndGo h env postID url config (some u) (some ex) st).1 := hm
          rwa [if_pos hc] at hm3
        show IsURLAlreadyArchived h
          (if ex.etag ≠ "" ∧ u.etag ≠ "" ∧ ex.etag = u.etag then
            etagReuse h env postID url ex st
          else resolveMimeAndGo h env postID url config (some u) (some ex) st).2
          postID url = true
        rw [if_pos hc]
        exact etagReuse_marks h env postID url ex st ⟨m, hm2⟩
      · have hm2 : Event.storePerPost m ∈
            (resolveMimeAndGo h env postID url config (some u) (some ex) st).1 := by
          have hm3 : Event.storePerPost m ∈
              (if ex.etag ≠ "" ∧ u.etag ≠ "" ∧ ex.etag = u.etag then
                etagReuse h env postID url ex st
              else resolveMimeAndGo h env postID url config (some u) (some ex) st).1 := hm
          rwa [if_neg hc] at hm3
        show IsURLAlreadyArchived h
          (if ex.etag ≠ "" ∧ u.etag ≠ "" ∧ ex.etag = u.etag then
            etagReuse h env postID url ex st
          else resolveMimeAndGo h env postID url config (some u) (some ex) st).2
          postID url = true
        rw [if_neg hc]
        exact resolveMimeAndGo_marks h env postID url config (some u) (some ex) st ⟨m, hm2⟩

/-- Any run of processURL that persisted a per-post record leaves the
store marked as already-archived for that exact (post, URL) pair. -/
theorem processURL_marks (h : HashModel) (env : Env) (postID url : String)
    (config : Configuration) (st : KVStore)
    (hmem : ∃ m, Event.storePerPost m ∈ (processURL h env postID url config st).1) :
    IsURLAlreadyArchived h (processURL h env postID url config st).2 postID url = true := by
  obtain ⟨m, hm⟩ := hmem
  unfold processURL at hm ⊢
  by_cases hded : IsURLAlreadyArchived h st postID url
  · rw [if_pos hded] at hm
    simp at hm
  · rw [if_neg hded] at hm ⊢
    rcases List.mem_cons.mp hm with hm2 | hm2
    · exact absurd hm2 (by simp)
    · exact afterDedup_marks h env postID url config st ⟨m, hm2⟩

/-- C4 -- Once a run of the per-URL pipeline has persisted its per-post
record, a second run for the same (postId, url) is a no-op: the per-post
dedup check makes it return before any probe, download, notification or
store write, whatever the second run's environment or configuration. -/
theorem pipeline_idempotent_after_success
    (h : HashModel) (env1 env2 : Env) (postID url : String)
    (cfg1 cfg2 : Configuration) (store : KVStore)
    (hstored : ∃ m, Event.storePerPost m ∈ (processURL h env1 postID url cfg1 store).1) :
    processURL h env2 postID url cfg2 (processURL h env1 postID url cfg1 store).2 =
      ([], (processURL h env1 postID url cfg1 store).2) := by
  have hmark := processURL_marks h env1 postID url cfg1 store hstored
  have hskip : ∀ (env : Env) (cfg : Configuration) (st : KVStore),
      IsURLAlreadyArchived h st postID url = true →
      processURL h env postID url cfg st = ([], st) := by
    intro env cfg st hd
    unfold processURL
    rw [if_pos hd]
  exact hskip env2 cfg2 _ hmark

/-- Witness for the C4 theorem: a concrete first run (the C1 scenario)
persists its per-post record, and the second run is a no-op. -/
theorem pipeline_idempotent_after_success_witness :
    (Event.storePerPost (CreateMetadataForExistingFile 9 "p1" "https://e.com/f" c1Existing)
        ∈ (processURL c1Hash c1Env "p1" "https://e.com/f" c1Config c1Store).1)
    ∧ processURL c1Hash c1Env "p1" "https://e.com/f" c1Config
        (processURL c1Hash c1Env "p1" "https://e.com/f" c1Config c1Store).2 =
      ([], (processURL c1Hash c1Env "p1" "https://e.com/f" c1Config c1Store).2) :=
  ⟨by decide,
    pipeline_idempotent_after_success c1Hash c1Env c1Env "p1" "https://e.com/f"
      c1Config c1Config c1Store
      ⟨CreateMetadataForExistingFile 9 "p1" "https://e.com/f" c1Existing, by decide⟩⟩

/-- Metadata persistence events (per-post or global). -/
def isStoreEvent : Event → Bool
  | Event.storePerPost _ => true
  | Event.storeGlobal _ => true
  | _ => false

/-- Success-notification events. -/
def isAttachmentReply : Event → Bool
  | Event.replyWithAttachment _ _ _ _ _ _ _ => true
  | _ => false

/-- True iff no metadata write occurs before the first
reply-with-attachment of a trace. -/
def notifyBeforeStores : List Event → Bool
  | [] => true
  | e :: tr =>
    if isStoreEvent e then false
    else if isAttachmentReply e then true
    else notifyBeforeStores tr

/-- True iff some metadata write occurs before the first
reply-with-attachment of a trace. -/
def storeBeforeReply : List Event → Bool
  | [] => false
  | e :: tr =>
    if isStoreEvent e then true
    else if isAttachmentReply e then false
    else storeBeforeReply tr

theorem notifyBeforeStores_cons_neutral (e : Event) (tr : List Event)
    (h1 : isStoreEvent e = false) (h2 : isAttachmentReply e = false) :
    notifyBeforeStores (e :: tr) = notifyBeforeStores tr := by
  simp [notifyBeforeStores, h1, h2]

theorem etagReuse_notifyFirst (h : HashModel) (env : Env) (postID url : String)
    (ex : ArchiveMetadata) (st : KVStore) :
    notifyBeforeStores (etagReuse h env postID url ex st).1 = true := by
  cases hro : env.replyAttachmentOk with
  | true => rw [etagReuse_ok h env postID url ex st hro]; rfl
  | false => rw [etagReuse_replyFailed h env postID url ex st hro]; rfl

theorem hashReuse_notifyFirst (h : HashModel) (env : Env) (postID url : String)
    (um : Option URLMetadata) (ex : ArchiveMetadata) (st : KVStore) :
    notifyBeforeStores (hashReuse h env postID url um ex st).1 = true := by
  cases hro : env.replyAttachmentOk with
  | false => rw [hashReuse_replyFailed h env postID url um ex st hro]; rfl
  | true =>
    cases um with
    | none => rw [hashReuse_ok_noNewEtag h env postID url none ex st hro (Or.inl rfl)]; rfl
    | some u =>
      by_cases he : u.etag = ""
      · rw [hashReuse_ok_noNewEtag h env postID url (some u) ex st hro
          (Or.inr ⟨u, rfl, he⟩)]
        rfl
      · rw [hashReuse_ok_newEtag h env postID url u ex st hro he]
        rfl

theorem freshArchive_notifyFirst (h : HashModel) (env : Env) (postID url : String)
    (um : Option URLMetadata) (tool : String) (f : ArchivedFile) (st : KVStore) :
    notifyBeforeStores (freshArchive h env postID url um tool f st).1 = true := by
  cases hup : env.uploadResult with
  | error e => rw [freshArchive_uploadFailed h env postID url um tool f st e hup]; rfl
  | ok fid => rw [freshArchive_ok h env postID url um tool f st fid hup]; rfl

theorem afterArchive_notifyFirst (h : HashModel) (env : Env) (postID url : String)
    (um : Option URLMetadata) (exArch : Option ArchiveMetadata)
    (tool : String) (f : ArchivedFile) (st : KVStore) :
    notifyBeforeStores (afterArchive h env postID url um exArch tool f st).1 = true := by
  unfold afterArchive
  cases exArch with
  | none => exact freshArchive_notifyFirst h env postID url um tool f st
  | some ex =>
    show notifyBeforeStores
      (if ex.contentHash ≠ "" then
        if ex.contentHash = h.hashBytes f.data then hashReuse h env postID url um ex st
        else freshArchive h env postID url um tool f st
      else freshArchive h env postID url um tool f st).1 = true
    by_cases h1 : ex.contentHash ≠ ""
    · rw [if_pos h1]
      by_cases h2 : ex.contentHash = h.hashBytes f.data
      · rw [if_pos h2]
        exact hashReuse_notifyFirst h env postID url um ex st
      · rw [if_neg h2]
        exact freshArchive_notifyFirst h env postID url um tool f st
    · rw [if_neg h1]
      exact freshArchive_notifyFirst h env postID url um tool f st

theorem selectToolAndArchive_notifyFirst (h : HashModel) (env : Env)
    (postID url : String) (config : Configuration) (um : Option URLMetadata)
    (exArch : Option ArchiveMetadata) (mt : String) (st : KVStore) :
    notifyBeforeStores
      (selectToolAndArchive h env postID url config um exArch mt st).1 = true := by
  unfold selectToolAndArchive
  by_cases h1 : findArchivalTool env.hostname mt config.archivalRules = ""
  · rw [if_pos h1]; rfl
  · rw [if_neg h1]
    by_cases h2 : findArchivalTool env.hostname mt config.archivalRules = "do_nothing"
    · rw [if_pos h2]; rfl
    · rw [if_neg h2]
      by_cases h3 : findArchivalTool env.hostname mt config.archivalRules ∈
          env.registeredTools
      · rw [if_pos h3]
        cases harch : env.archiveResult
            (findArchivalTool env.hostname mt config.archivalRules) with
        | error e => rfl
        | ok f =>
          show notifyBeforeStores
            (Event.archiveCall (findArchivalTool env.hostname mt config.archivalRules)
                url mt ::
              (afterArchive h env postID url um exArch
                (findArchivalTool env.hostname mt config.archivalRules) f st).1) = true
          rw [notifyBeforeStores_cons_neutral
            (Event.archiveCall (findArchivalTool env.hostname mt config.archivalRules)
              url mt) _ rfl rfl]
          exact afterArchive_notifyFirst h env postID url um exArch
            (findArchivalTool env.hostname mt config.archivalRules) f st
      · rw [if_neg h3]; rfl

theorem detectFallback_notifyFirst (h : HashModel) (env : Env) (postID url : String)
    (config : Configuration) (um : Option URLMetadata)
    (exArch : Option ArchiveMetadata) (st : KVStore) :
    notifyBeforeStores (detectFallback h env postID url config um exArch st).1 = true := by
  unfold detectFallback
  cases hdet : env.detectMimeResult with
  | error e => rfl
  | ok mt =>
    show notifyBeforeStores
      (Event.detectMime url ::
        (selectToolAndArchive h env postID url config um exArch mt st).1) = true
    rw [notifyBeforeStores_cons_neutral (Event.detectMime url) _ rfl rfl]
    exact selectToolAndArchive_notifyFirst h env postID url config um exArch mt st

theorem resolveMimeAndGo_notifyFirst (h : HashModel) (env : Env) (postID url : String)
    (config : Configuration) (um : Option URLMetadata)
    (exArch : Option ArchiveMetadata) (st : KVStore) :
    notifyBeforeStores (resolveMimeAndGo h env postID url config um exArch st).1 = true := by
  unfold resolveMimeAndGo
  cases um with
  | none => exact detectFallback_notifyFirst h env postID url config none exArch st
  | some u =>
    show notifyBeforeStores
      (if u.mimeType ≠ "" then
        selectToolAndArchive h env postID url config (some u) exArch u.mimeType st
      else detectFallback h env postID url config (some u) exArch st).1 = true
    by_cases hmt : u.mimeType ≠ ""
    · rw [if_pos hmt]
      exact selectToolAndArchive_notifyFirst h env postID url config (some u) exArch
        u.mimeType st
    · rw [if_neg hmt]
      exact detectFallback_notifyFirst h env postID url config (some u) exArch st

theorem afterDedup_notifyFirst (h : HashModel) (env : Env) (postID url : String)
    (config : Configuration) (st : KVStore) :
    notifyBeforeStores (afterDedup h env postID url config st).1 = true := by
  unfold afterDedup
  cases hEA : existingArchiveOf h st url with
  | none => exact resolveMimeAndGo_notifyFirst h env postID url config env.probeResult none st
  | some ex =>
    cases hum : env.probeResult with
    | none => exact resolveMimeAndGo_notifyFirst h env postID url config none (some ex) st
    | some u =>
      show notifyBeforeStores
        (if ex.etag ≠ "" ∧ u.etag ≠ "" ∧ ex.etag = u.etag then
          etagReuse h env postID url ex st
        else resolveMimeAndGo h env postID url config (some u) (some ex) st).1 = true
      by_cases hc : ex.etag ≠ "" ∧ u.etag ≠ "" ∧ ex.etag = u.etag
      · rw [if_pos hc]
        exact etagReuse_notifyFirst h env postID url ex st
      · rw [if_neg hc]
        exact resolveMimeAndGo_notifyFirst h env postID url config (some u) (some ex) st

/-- C6 counterexample -- a successful ETag-reuse run notifies before it
persists: the reply-with-attachment sits at index 1 of the trace and the
per-post metadata write at index 2, so the persistence does not happen
before the success notification as claimed. -/
theorem persistence_before_notification_cex :
    (processURL c1Hash c1Env "p1" "https://e.com/f" c1Config c1Store).1 =
      [Event.probe "https://e.com/f",
        Event.replyWithAttachment "p1" "F1" "https://e.com/f" "f.pdf"
          "application/pdf" 3 "p0",
        Event.storePerPost
          (CreateMetadataForExistingFile 9 "p1" "https://e.com/f" c1Existing)]
    ∧ storeBeforeReply
        (processURL c1Hash c1Env "p1" "https://e.com/f" c1Config c1Store).1 = false := by
  exact ⟨by decide, by decide⟩

/-- C6 amended -- on every terminal path of processURL (successful or
not), every metadata persistence is preceded by the success-notification
attempt: the reply-with-attachment comes first, the per-post and global
record writes after it, never the other way around. -/
theorem notification_precedes_persistence (h : HashModel) (env : Env)
    (postID url : String) (config : Configuration) (store : KVStore) :
    notifyBeforeStores (processURL h env postID url config store).1 = true := by
  unfold processURL
  by_cases hded : IsURLAlreadyArchived h store postID url
  · rw [if_pos hded]; rfl
  · rw [if_neg hded]
    show notifyBeforeStores
      (Event.probe url :: (afterDedup h env postID url config store).1) = true
    rw [notifyBeforeStores_cons_neutral (Event.probe url) _ rfl rfl]
    exact afterDedup_notifyFirst h env postID url config store

def collHash : HashModel := { hashString := fun _ => "C", hashBytes := fun _ => "C" }

def collRecord : ArchiveMetadata :=
  { postID := "p", originalURL := "u1", fileID := "F", filename := "f"
    mimeType := "m", archivedAt := 0, toolUsed := "t", size := 1
    etag := "", contentHash := "" }

/-- C10 -- IsURLAlreadyArchived answers true exactly when the per-post key
holds an unmarshallable record list containing an entry whose OriginalURL
equals the queried URL string itself; in particular a key collision with
a different URL (here a constant hash sends u1 and u2 to the same key)
never yields a false positive, and stored bytes that fail to unmarshal
answer false rather than an error. -/
theorem dedup_compares_full_url :
    (∀ (h : HashModel) (store : KVStore) (postID u : String),
      IsURLAlreadyArchived h store postID u = true ↔
        ∃ l, kvGet store (getArchiveMetadataKey h postID u) = some (KVValue.metaList l)
          ∧ ∃ m ∈ l, m.originalURL = u)
    ∧ collHash.hashString "u1" = collHash.hashString "u2"
    ∧ IsURLAlreadyArchived collHash
        [(getArchiveMetadataKey collHash "p" "u1", KVValue.metaList [collRecord])]
        "p" "u2" = false
    ∧ IsURLAlreadyArchived collHash
        [(getArchiveMetadataKey collHash "p" "u2", KVValue.metaList [collRecord])]
        "p" "u1" = true
    ∧ IsURLAlreadyArchived collHash
        [(getArchiveMetadataKey collHash "p" "u2", KVValue.corrupt)] "p" "u2" = false := by
  refine ⟨?_, by decide, by decide, by decide, by decide⟩
  intro h store postID u
  unfold IsURLAlreadyArchived
  cases hk : kvGet store (getArchiveMetadataKey h postID u) with
  | none => simp
  | some v =>
    cases v with
    | metaList l => simp [List.any_eq_true]
    | metaSingle m => simp
    | corrupt => simp

/-- C2 -- With an existing global record whose non-empty contentHash equals
the hash of the freshly downloaded bytes, the pipeline uploads nothing
and replies with the existing artifact; the global record's ETag and
timestamp are refreshed exactly when the probe observed a non-empty
ETag.  On a hash mismatch the new bytes are uploaded instead. -/
theorem hash_match_reuses_existing_artifact
    (h : HashModel) (env : Env) (postID url : String) (config : Configuration)
    (store : KVStore) (ex : ArchiveMetadata) (um : URLMetadata) (f : ArchivedFile)
    (hded : IsURLAlreadyArchived h store postID url = false)
    (hex : GetExistingArchiveForURL h store url = Except.ok (some ex))
    (hprobe : env.probeResult = some um)
    (hnoetag : ¬(ex.etag ≠ "" ∧ um.etag ≠ "" ∧ ex.etag = um.etag))
    (hmime : um.mimeType ≠ "")
    (htool1 : findArchivalTool env.hostname um.mimeType config.archivalRules ≠ "")
    (htool2 : findArchivalTool env.hostname um.mimeType config.archivalRules ≠ "do_nothing")
    (htool3 : findArchivalTool env.hostname um.mimeType config.archivalRules ∈
      env.registeredTools)
    (harch : env.archiveResult (findArchivalTool env.hostname um.mimeType
      config.archivalRules) = Except.ok f)
    (hch : ex.contentHash ≠ "")
    (hreply : env.replyAttachmentOk = true) :
    (ex.contentHash = h.hashBytes f.data →
        (∀ d fn, Event.uploadFile d fn ∉ (processURL h env postID url config store).1)
      ∧ Event.replyWithAttachment postID ex.fileID url ex.filename ex.mimeType
          ex.size ex.postID ∈ (processURL h env postID url config store).1
      ∧ (um.etag ≠ "" →
          processURL h env postID url config store =
            ([Event.probe url,
              Event.archiveCall (findArchivalTool env.hostname um.mimeType
                config.archivalRules) url um.mimeType,
              Event.replyWithAttachment postID ex.fileID url ex.filename ex.mimeType
                ex.size ex.postID,
              Event.storePerPost
                { CreateMetadataForExistingFile env.now postID url ex with etag := um.etag },
              Event.storeGlobal { ex with etag := um.etag, archivedAt := env.now }],
              StoreGlobalArchiveMetadata h
                (StoreArchiveMetadata h store
                  { CreateMetadataForExistingFile env.now postID url ex with etag := um.etag })
                { ex with etag := um.etag, archivedAt := env.now }))
      ∧ (um.etag = "" →
          processURL h env postID url config store =
            ([Event.probe url,
              Event.archiveCall (findArchivalTool env.hostname um.mimeType
                config.archivalRules) url um.mimeType,
              Event.replyWithAttachment postID ex.fileID url ex.filename ex.mimeType
                ex.size ex.postID,
              Event.storePerPost (CreateMetadataForExistingFile env.now postID url ex)],
              StoreArchiveMetadata h store
                (CreateMetadataForExistingFile env.now postID url ex))))
    ∧ (ex.contentHash ≠ h.hashBytes f.data →
        Event.uploadFile f.data f.filename ∈ (processURL h env postID url config store).1) := by
  have hex2 : existingArchiveOf h store url = some ex := by
    unfold existingArchiveOf
    rw [hex]
  have h1 : processURL h env postID url config store =
      (Event.probe url :: (afterDedup h env postID url config store).1,
        (afterDedup h env postID url config store).2) := by
    unfold processURL
    rw [if_neg (by simp [hded])]
  have h2 : afterDedup h env postID url config store =
      resolveMimeAndGo h env postID url config (some um) (some ex) store := by
    unfold afterDedup
    rw [hex2, hprobe]
    show (if ex.etag ≠ "" ∧ um.etag ≠ "" ∧ ex.etag = um.etag then
      etagReuse h env postID url ex store
    else resolveMimeAndGo h env postID url config (some um) (some ex) store) = _
    rw [if_neg hnoetag]
  have h3 : resolveMimeAndGo h env postID url config (some um) (some ex) store =
      selectToolAndArchive h env postID url config (some um) (some ex)
        um.mimeType store := by
    unfold resolveMimeAndGo
    show (if um.mimeType ≠ "" then
      selectToolAndArchive h env postID url config (some um) (some ex) um.mimeType store
    else detectFallback h env postID url config (some um) (some ex) store) = _
    rw [if_pos hmime]
  have h4 : selectToolAndArchive h env postID url config (some um) (some ex)
      um.mimeType store =
      (Event.archiveCall (findArchivalTool env.hostname um.mimeType
          config.archivalRules) url um.mimeType ::
        (afterArchive h env postID url (some um) (some ex)
          (findArchivalTool env.hostname um.mimeType config.archivalRules) f store).1,
        (afterArchive h env postID url (some um) (some ex)
          (findArchivalTool env.hostname um.mimeType config.archivalRules) f store).2) := by
    unfold selectToolAndArchive
    rw [if_neg htool1, if_neg htool2, if_pos htool3, harch]
  have h5 : afterArchive h env postID url (some um) (some ex)
      (findArchivalTool env.hostname um.mimeType config.archivalRules) f store =
      (if ex.contentHash = h.hashBytes f.data then
        hashReuse h env postID url (some um) ex store
      else freshArchive h env postID url (some um)
        (findArchivalTool env.hostname um.mimeType config.archivalRules) f store) := by
    unfold afterArchive
    show (if ex.contentHash ≠ "" then _ else _) = _
    rw [if_pos hch]
  constructor
  · intro hmatch
    have h6 : afterArchive h env postID url (some um) (some ex)
        (findArchivalTool env.hostname um.mimeType config.archivalRules) f store =
        hashReuse h env postID url (some um) ex store := by
      rw [h5, if_pos hmatch]
    by_cases he : um.etag = ""
    · have h7 := hashReuse_ok_noNewEtag h env postID url (some um) ex store hreply
        (Or.inr ⟨um, rfl, he⟩)
      have hrun : processURL h env postID url config store =
          ([Event.probe url,
            Event.archiveCall (findArchivalTool env.hostname um.mimeType
              config.archivalRules) url um.mimeType,
            Event.replyWithAttachment postID ex.fileID url ex.filename ex.mimeType
              ex.size ex.postID,
            Event.storePerPost (CreateMetadataForExistingFile env.now postID url ex)],
            StoreArchiveMetadata h store
              (CreateMetadataForExistingFile env.now postID url ex)) := by
        rw [h1, h2, h3, h4, h6, h7]
      refine ⟨?_, ?_, ?_, fun _ => hrun⟩
      · intro d fn
        rw [hrun]
        simp
      · rw [hrun]
        simp
      · intro hne
        exact absurd he hne
    · have h7 := hashReuse_ok_newEtag h env postID url um ex store hreply he
      have hrun : processURL h env postID url config store =
          ([Event.probe url,
            Event.archiveCall (findArchivalTool env.hostname um.mimeType
              config.archivalRules) url um.mimeType,
            Event.replyWithAttachment postID ex.fileID url ex.filename ex.mimeType
              ex.size ex.postID,
            Event.storePerPost
              { CreateMetadataForExistingFile env.now postID url ex with etag := um.etag },
            Event.storeGlobal { ex with etag := um.etag, archivedAt := env.now }],
            StoreGlobalArchiveMetadata h
              (StoreArchiveMetadata h store
                { CreateMetadataForExistingFile env.now postID url ex with etag := um.etag })
              { ex with etag := um.etag, archivedAt := env.now }) := by
        rw [h1, h2, h3, h4, h6, h7]
      refine ⟨?_, ?_, fun _ => hrun, ?_⟩
      · intro d fn
        rw [hrun]
        simp
      · rw [hrun]
        simp
      · intro he2
        exact absurd he2 he
  · intro hmismatch
    have h6 : afterArchive h env postID url (some um) (some ex)
        (findArchivalTool env.hostname um.mimeType config.archivalRules) f store =
        freshArchive h env postID url (some um)
          (findArchivalTool env.hostname um.mimeType config.archivalRules) f store := by
      rw [h5, if_neg hmismatch]
    rw [h1, h2, h3, h4, h6]
    cases hup : env.uploadResult with
    | error e =>
      rw [freshArchive_uploadFailed h env postID url (some um) _ f store e hup]
      simp
    | ok fid =>
      rw [freshArchive_ok h env postID url (some um) _ f store fid hup]
      simp

def c2Hash : HashModel := { hashString := fun _ => "H", hashBytes := fun _ => "B" }

def c2Existing : ArchiveMetadata :=
  { postID := "p0", originalURL := "https://e.com/d.pdf", fileID := "F1"
    filename := "d.pdf", mimeType := "application/pdf", archivedAt := 5
    toolUsed := "direct_download", size := 3, etag := "old", contentHash := "B" }

def c2Probe : URLMetadata := { mimeType := "application/pdf", etag := "new", size := 3 }

def c2File : ArchivedFile :=
  { filename := "d.pdf", data := [1, 2, 3], mimeType := "application/pdf", size := 3 }

def c2Env : Env :=
  { now := 9, hostname := "e.com", probeResult := some c2Probe
    detectMimeResult := Except.ok "application/pdf"
    registeredTools := defaultRegisteredTools
    archiveResult := fun _ => Except.ok c2File
    uploadResult := Except.ok "F2", replyAttachmentOk := true }

def c2Config : Configuration :=
  { archivalRules :=
      [{ kind := "mimetype", pattern := "application/pdf", archivalTool := "direct_download" }]
    defaultArchivalTool := "do_nothing" }

def c2Store : KVStore := [("archive_url_H", KVValue.metaSingle c2Existing)]

/-- Witness for the C2 theorem at a concrete hash-matching run with a
freshly observed non-empty ETag. -/
theorem hash_match_reuses_existing_artifact_witness :
    (c2Existing.contentHash = c2Hash.hashBytes c2File.data
      ∧ c2Probe.etag ≠ ""
      ∧ c2Existing.etag ≠ c2Probe.etag
      ∧ IsURLAlreadyArchived c2Hash c2Store "p1" "https://e.com/d.pdf" = false)
    ∧ ∀ d fn, Event.uploadFile d fn ∉
        (processURL c2Hash c2Env "p1" "https://e.com/d.pdf" c2Config c2Store).1 :=
  ⟨⟨by decide, by decide, by decide, by decide⟩,
    ((hash_match_reuses_existing_artifact c2Hash c2Env "p1" "https://e.com/d.pdf"
      c2Config c2Store c2Existing c2Probe c2File (by decide) (by rfl) (by decide)
      (by decide) (by decide) (by decide) (by decide) (by decide) (by rfl)
      (by decide) (by decide)).1 (by decide)).1⟩

/-- RE2 whitespace class \\s = [\\t\\n\\f\\r ]. -/
def goSpace (c : Char) : Bool :=
  c = ' ' || c = Char.ofNat 9 || c = Char.ofNat 10 || c = Char.ofNat 12 ||
    c = Char.ofNat 13

/-- The negated character class of the URL regexp in ExtractURLs
(link_extractor.go): everything except whitespace, angle brackets, the
double quote, braces, pipe, backslash, caret, backquote and square
brackets may appear in a URL body. -/
def urlBodyChar (c : Char) : Bool :=
  !(goSpace c || c = '<' || c = '>' || c = '"' || c = Char.ofNat 123 ||
    c = Char.ofNat 125 || c = '|' || c = Char.ofNat 92 || c = '^' ||
    c = Char.ofNat 96 || c = '[' || c = ']')

/-- ASCII case-insensitive comparison of an input character against an
expected lowercase pattern character (the (?i) flag of the regexp). -/
def ciEq (c p : Char) : Bool :=
  c = p || (65 ≤ c.toNat && c.toNat ≤ 90 && c.toNat + 32 = p.toNat)

/-- Match a literal lowercase pattern case-insensitively at the head of
the input; returns the matched input characters and the remainder. -/
def matchCI : List Char → List Char → Option (List Char × List Char)
  | [], cs => some ([], cs)
  | _ :: _, [] => none
  | p :: ps, c :: cs =>
    if ciEq c p then
      match matchCI ps cs with
      | some (m, r) => some (c :: m, r)
      | none => none
    else none

/-- One attempt of the regexp (?i)https?://[body]+ at the start of the
input: greedy optional s, then a maximal non-empty run of body
characters (RE2 leftmost semantics are realised by the caller trying
successive start positions). -/
def tryMatchURLAt (cs : List Char) : Option (List Char × List Char) :=
  let pre :=
    match matchCI ['h', 't', 't', 'p', 's', ':', '/', '/'] cs with
    | some r => some r
    | none => matchCI ['h', 't', 't', 'p', ':', '/', '/'] cs
  match pre with
  | none => none
  | some (m, rest) =>
    let body := rest.takeWhile urlBodyChar
    if body.isEmpty then none
    else some (m ++ body, rest.drop body.length)

/-- FindAllString for the URL regexp, with explicit fuel so the kernel
can evaluate it; every step consumes at least one character, so fuel
equal to the input length (as supplied by scanPlainURLs) never runs
out. -/
def scanPlainURLsF : Nat → List Char → List String
  | 0, _ => []
  | _, [] => []
  | Nat.succ fuel, c :: cs =>
    match tryMatchURLAt (c :: cs) with
    | some (m, rest) => String.mk m :: scanPlainURLsF fuel rest
    | none => scanPlainURLsF fuel cs

def scanPlainURLs (cs : List Char) : List String := scanPlainURLsF cs.length cs

/-- One attempt of the markdown regexp \\[([^\\]]+)\\]\\(([^)]+)\\) at the start
of the input: a non-empty label up to the first closing bracket, then
"](", then a non-empty target up to the first closing parenthesis.
Returns the captured target (group 2) and the remainder after the
match. -/
def tryMatchMarkdownAt (cs : List Char) : Option (String × List Char) :=
  match cs with
  | [] => none
  | c :: rest =>
    if c = '[' then
      let label := rest.takeWhile (fun x => !(x = ']'))
      if label.isEmpty then none
      else
        match rest.drop label.length with
        | c1 :: c2 :: rest2 =>
          if c1 = ']' && c2 = '(' then
            let target := rest2.takeWhile (fun x => !(x = ')'))
            if target.isEmpty then none
            else
              match rest2.drop target.length with
              | c3 :: rest3 =>
                if c3 = ')' then some (String.mk target, rest3) else none
              | [] => none
          else none
        | _ => none
    else none

/-- FindAllStringSubmatch for the markdown regexp, collecting the
parenthesized targets; fuelled like scanPlainURLsF. -/
def scanMarkdownTargetsF : Nat → List Char → List String
  | 0, _ => []
  | _, [] => []
  | Nat.succ fuel, c :: cs =>
    match tryMatchMarkdownAt (c :: cs) with
    | some (s, rest) => s :: scanMarkdownTargetsF fuel rest
    | none => scanMarkdownTargetsF fuel cs

def scanMarkdownTargets (cs : List Char) : List String :=
  scanMarkdownTargetsF cs.length cs

/-- The cutset ".,;:!?)" of the strings.Trim call in ExtractURLs. -/
def trimCutset (c : Char) : Bool :=
  c = '.' || c = ',' || c = ';' || c = ':' || c = '!' || c = '?' || c = ')'

/-- strings.Trim(match, ".,;:!?)"): strip cutset characters from both
ends. -/
def trimPunct (s : String) : String :=
  String.mk (((s.data.dropWhile trimCutset).reverse.dropWhile trimCutset).reverse)

/-- Split a character list at the first colon, requiring "//" right after
it (the shape url.Parse gives a URL with an authority). -/
def splitSchemeSep : List Char → Option (List Char × List Char)
  | [] => none
  | c :: cs =>
    if c = ':' then
      match cs with
      | c1 :: c2 :: rest => if c1 = '/' && c2 = '/' then some ([], rest) else none
      | _ => none
    else
      match splitSchemeSep cs with
      | some (a, b) => some (c :: a, b)
      | none => none

/-- isValidURL from link_extractor.go.  net/url.Parse is the Go standard
library; it is modelled for the extractor's check: valid means a
non-empty scheme (no slash before the first colon) followed by "://" and
a non-empty host (read up to the first '/', '?' or '#'). -/
def isValidURL (s : String) : Bool :=
  match splitSchemeSep s.data with
  | none => false
  | some (scheme, rest) =>
    let host := rest.takeWhile (fun c => !(c = '/' || c = '?' || c = '#'))
    !scheme.isEmpty && scheme.all (fun c => !(c = '/')) && !host.isEmpty

/-- The seen-map append step shared by both extraction passes of
ExtractURLs: keep a candidate only when it is a valid URL not yet
collected. -/
def addURL (acc : List String) (u : String) : List String :=
  if isValidURL u && !acc.contains u then acc ++ [u] else acc

/-- ExtractURLs from link_extractor.go: all regexp matches for plain URLs
(each trimmed of surrounding ".,;:!?)" punctuation), then all markdown
link targets (untrimmed), deduplicated in extraction order. -/
def ExtractURLs (message : String) : List String :=
  (scanMarkdownTargets message.data).foldl addURL
    (((scanPlainURLs message.data).map trimPunct).foldl addURL [])

theorem addURL_nodup (acc : List String) (u : String) (h : acc.Nodup) :
    (addURL acc u).Nodup := by
  unfold addURL
  by_cases hc : isValidURL u && !acc.contains u
  · rw [if_pos hc]
    have hnot : u ∉ acc := by
      rcases (Bool.and_eq_true _ _).mp hc with ⟨_, h3⟩
      have h2 : acc.contains u = false := by
        cases hcc : acc.contains u with
        | false => rfl
        | true => rw [hcc] at h3; simp at h3
      simpa using h2
    simp [List.nodup_append, h, hnot]
  · rw [if_neg hc]
    exact h

theorem foldl_addURL_nodup (l : List String) (acc : List String) (h : acc.Nodup) :
    (l.foldl addURL acc).Nodup := by
  induction l generalizing acc with
  | nil => exact h
  | cons x xs ih => exact ih _ (addURL_nodup acc x h)

/-- C7 -- ExtractURLs on the specification's example yields exactly the
two URLs in order, and on every input the returned list is
duplicate-free. -/
theorem extractURLs_example_and_nodup :
    ExtractURLs "see https://a.com/x and [label](https://b.com/y)" =
      ["https://a.com/x", "https://b.com/y"]
    ∧ ∀ message : String, (ExtractURLs message).Nodup := by
  constructor
  · decide
  · intro message
    unfold ExtractURLs
    exact foldl_addURL_nodup _ _ (foldl_addURL_nodup _ _ List.nodup_nil)

/-- Go strings.Split on a single-character separator. -/
def goSplitChar (sep : Char) : List Char → List (List Char)
  | [] => [[]]
  | c :: cs =>
    if c = sep then [] :: goSplitChar sep cs
    else
      match goSplitChar sep cs with
      | g :: gs => (c :: g) :: gs
      | [] => [[c]]

/-- Go strings.TrimSpace (the ASCII whitespace it strips). -/
def goSpaceWide (c : Char) : Bool := goSpace c || c = Char.ofNat 11

def goTrimSpaceL (cs : List Char) : List Char :=
  ((cs.dropWhile goSpaceWide).reverse.dropWhile goSpaceWide).reverse

/-- strings.Trim(s, "\"" ): strip double quotes from both ends. -/
def trimQuotes (cs : List Char) : List Char :=
  ((cs.dropWhile (fun c => c = '"')).reverse.dropWhile (fun c => c = '"')).reverse

/-- strings.SplitN(s, "''", 2): the part after the first occurrence of two
apostrophes, when one exists (RFC 5987 encoded filenames). -/
def splitAfterTwoApos : List Char → Option (List Char)
  | [] => none
  | [_] => none
  | a :: b :: rest =>
    if a = Char.ofNat 39 && b = Char.ofNat 39 then some rest
    else splitAfterTwoApos (b :: rest)

/-- strings.HasPrefix on character lists. -/
def goHasPrefixL (s p : List Char) : Bool := p.isPrefixOf s

/-- The Content-Disposition loop of extractFilename
(archiver/direct_download.go): first part giving a usable filename= or
filename*= value wins. -/
def filenameFromParts : List (List Char) → Option (List Char)
  | [] => none
  | part :: parts =>
    let p := goTrimSpaceL part
    if goHasPrefixL p ['f', 'i', 'l', 'e', 'n', 'a', 'm', 'e', '='] then
      let fn := trimQuotes (p.drop 9)
      if fn.isEmpty then filenameFromParts parts else some fn
    else if goHasPrefixL p ['f', 'i', 'l', 'e', 'n', 'a', 'm', 'e', '*', '='] then
      match splitAfterTwoApos (p.drop 10) with
      | some rest => some rest
      | none => filenameFromParts parts
    else filenameFromParts parts

/-- extractFilename from archiver/direct_download.go: Content-Disposition
first (plain or RFC 5987), then the URL's last path segment with any
query stripped, then the generic fallback name. -/
def extractFilename (url contentDisposition : String) : String :=
  match (if contentDisposition = "" then none
    else filenameFromParts (goSplitChar ';' contentDisposition.data)) with
  | some fn => String.mk fn
  | none =>
    let lastPart :=
      match (goSplitChar '/' url.data).getLast? with
      | some lp => lp
      | none => []
    let noQuery := lastPart.takeWhile (fun c => !(c = '?'))
    if noQuery.isEmpty then "downloaded_file" else String.mk noQuery

/-- The MIME type Archive reports: the response Content-Type (parameters
after ';' removed, trimmed) when present, else the hinted one. -/
def mimeFromContentType (ct hinted : String) : String :=
  if ct = "" then hinted
  else
    match goSplitChar ';' ct.data with
    | p :: _ => String.mk (goTrimSpaceL p)
    | [] => hinted

/-- An HTTP response as the downloader's client delivers it: status code,
declared Content-Length (-1 when unknown), the full body stream the
server would send, and the two headers Archive reads. -/
structure HTTPResponse where
  statusCode : Int
  contentLength : Int
  body : List Nat
  contentType : String
  contentDisposition : String
deriving Repr, DecidableEq

/-- The error outcomes of DirectDownload.Archive, tagged by the Go error
site. -/
inductive DownloadError where
  | transportFailed
  | badStatus (code : Int)
  | tooLargeContentLength (contentLength : Int)
  | tooLargeBody
deriving Repr, DecidableEq

/-- MaxFileSize from archiver/direct_download.go: 100MB. -/
def MaxFileSize : Int := 100 * 1024 * 1024

/-- DirectDownload.Archive from archiver/direct_download.go: the GET
response (none models a transport error) must be 2xx; a Content-Length
above MaxFileSize is rejected; io.LimitReader caps the read at
MaxFileSize+1 bytes and more than MaxFileSize read bytes is rejected;
otherwise the ArchivedFile carries the filename from Content-Disposition
or the URL and the response Content-Type over the hinted MIME type. -/
def directDownloadArchive (url mimeType : String) (resp : Option HTTPResponse) :
    Except DownloadError ArchivedFile :=
  match resp with
  | none => Except.error DownloadError.transportFailed
  | some r =>
    if r.statusCode < 200 ∨ 300 ≤ r.statusCode then
      Except.error (DownloadError.badStatus r.statusCode)
    else if MaxFileSize < r.contentLength then
      Except.error (DownloadError.tooLargeContentLength r.contentLength)
    else if MaxFileSize < ((r.body.take (MaxFileSize + 1).toNat).length : Int) then
      Except.error DownloadError.tooLargeBody
    else
      Except.ok
        { filename := extractFilename url r.contentDisposition
          data := r.body.take (MaxFileSize + 1).toNat
          mimeType := mimeFromContentType r.contentType mimeType
          size := ((r.body.take (MaxFileSize + 1).toNat).length : Int) }

/-- C8 -- Any 2xx response whose declared Content-Length or whose actual
body exceeds the fixed 100MB ceiling makes DirectDownload.Archive return
the corresponding oversized-content error, so no ArchivedFile exists to
upload or persist. -/
theorem direct_download_rejects_oversized (r : HTTPResponse) (url mimeType : String)
    (hst : 200 ≤ r.statusCode ∧ r.statusCode < 300) :
    (MaxFileSize < r.contentLength →
      directDownloadArchive url mimeType (some r) =
        Except.error (DownloadError.tooLargeContentLength r.contentLength))
    ∧ (r.contentLength ≤ MaxFileSize → MaxFileSize < (r.body.length : Int) →
      directDownloadArchive url mimeType (some r) =
        Except.error DownloadError.tooLargeBody) := by
  have hstatus : ¬(r.statusCode < 200 ∨ 300 ≤ r.statusCode) := by omega
  constructor
  · intro hcl
    simp only [directDownloadArchive]
    rw [if_neg hstatus, if_pos hcl]
  · intro hcl hbody
    simp only [directDownloadArchive]
    rw [if_neg hstatus, if_neg (show ¬ MaxFileSize < r.contentLength by omega)]
    have hb : 104857601 ≤ r.body.length := by
      have h1 : (100 * 1024 * 1024 : Int) < (r.body.length : Int) := hbody
      omega
    have htoNat : (MaxFileSize + 1).toNat = 104857601 := by decide
    have htake : (r.body.take (MaxFileSize + 1).toNat).length = 104857601 := by
      rw [List.length_take, htoNat]
      omega
    rw [if_pos (by rw [htake]; decide)]

def c8Resp : HTTPResponse :=
  { statusCode := 200, contentLength := -1
    body := List.replicate (100 * 1024 * 1024 + 1) 0
    contentType := "application/pdf", contentDisposition := "" }

/-- Witness for the C8 theorem: a 200 response with unknown
Content-Length whose body is exactly one byte over the 100MB ceiling is
rejected with the oversized error and yields no file. -/
theorem direct_download_rejects_oversized_witness :
    ((200 : Int) ≤ c8Resp.statusCode ∧ c8Resp.statusCode < 300
      ∧ c8Resp.contentLength ≤ MaxFileSize
      ∧ (c8Resp.body.length : Int) = MaxFileSize + 1)
    ∧ directDownloadArchive "https://e.com/big.bin" "application/pdf" (some c8Resp) =
        Except.error DownloadError.tooLargeBody :=
  ⟨⟨by decide, by decide, by decide, by
      rw [show c8Resp.body = List.replicate (100 * 1024 * 1024 + 1) 0 from rfl,
        List.length_replicate]
      decide⟩,
    (direct_download_rejects_oversized c8Resp "https://e.com/big.bin" "application/pdf"
      ⟨by decide, by decide⟩).2 (by decide) (by
        rw [show c8Resp.body = List.replicate (100 * 1024 * 1024 + 1) 0 from rfl,
          List.length_replicate]
        decide)⟩

end LinkArchiver
